import Mathlib

/-!
# Verification of the file-editing tool layer of `test_obsidian_work1`

Shallow embedding of the pure string-processing core of the tools in
`src/tools/` (read_file.py, insert_content.py, search_and_replace.py,
apply_diff.py, update_todo_list.py, write_to_file.py).

File contents are modelled as `String`; the filesystem interaction of each
tool is modelled by passing the current file content (and an existence flag)
in, and returning the content that would be written out, so every function
here is pure and executable.  Python line handling in this repository only
ever involves `'\n'` (`str.split('\n')`, `'\n'.join`, `splitlines`,
file iteration), so the embeddings treat `'\n'` as the only line separator.
-/

/-! ## Python string primitives -/

/-- The whitespace characters removed by Python's `str.strip()` and matched
by `\s` in Python regular expressions (ASCII range). -/
def pyWs (c : Char) : Bool :=
  c = ' ' || c = '\t' || c = '\n' || c = '\r' || c = '\x0b' || c = '\x0c'

/-- Python `s.split('\n')` on the underlying character list.
`[] ↦ [[]]` because `"".split('\n') == ['']`. -/
def splitNlAux : List Char → List (List Char)
  | [] => [[]]
  | c :: cs =>
    if c = '\n' then [] :: splitNlAux cs
    else
      match splitNlAux cs with
      | [] => [[c]]
      | l :: ls => (c :: l) :: ls

/-- Python `s.split('\n')`. -/
def splitNl (s : String) : List String := (splitNlAux s.data).map String.mk

/-- Python `'\n'.join(xs)` on character lists. -/
def joinNlAux : List (List Char) → List Char
  | [] => []
  | [l] => l
  | l :: ls => l ++ '\n' :: joinNlAux ls

/-- Python `'\n'.join(xs)`. -/
def joinNl (xs : List String) : String := String.mk (joinNlAux (xs.map String.data))

/-- The lines obtained by iterating over a Python text file, or by
`s.splitlines(keepends=True)`, for newline-only content: each line keeps its
trailing `'\n'`; a final segment without a newline is kept as-is; the empty
string yields no lines. -/
def keepLinesAux : List Char → List (List Char)
  | [] => []
  | c :: cs =>
    if c = '\n' then ['\n'] :: keepLinesAux cs
    else
      match keepLinesAux cs with
      | [] => [[c]]
      | l :: ls => (c :: l) :: ls

/-- Python `s.splitlines(keepends=True)` for newline-only content. -/
def keepLines (s : String) : List String := (keepLinesAux s.data).map String.mk

/-- Concatenation `"".join(xs)` of a list of strings. -/
def concatAux : List (List Char) → List Char
  | [] => []
  | l :: ls => l ++ concatAux ls

/-- Python `"".join(xs)`. -/
def joinAll (xs : List String) : String := String.mk (concatAux (xs.map String.data))

/-- Drop one trailing `'\n'` if present (body of a keepends line). -/
def stripTrailingNl (l : List Char) : List Char :=
  if l.getLast? = some '\n' then l.dropLast else l

/-- Python `s.splitlines()` (without keepends) for newline-only content. -/
def pySplitlines (s : String) : List String :=
  (keepLinesAux s.data).map (fun l => String.mk (stripTrailingNl l))

/-- Python `s.strip()`. -/
def pyStrip (s : String) : String :=
  String.mk (((s.data.dropWhile pyWs).reverse.dropWhile pyWs).reverse)

/-- Python `s.startswith(pre)`. -/
def pyStartsWith (s pre : String) : Bool := pre.data.isPrefixOf s.data

/-- Python `s.endswith(suf)`. -/
def pyEndsWith (s suf : String) : Bool := suf.data.reverse.isPrefixOf s.data.reverse

/-- Does the string end with a newline (`s.endswith('\n')`)? -/
def endsWithNl (s : String) : Bool := s.data.getLast? = some '\n'

/-- Replacement of every leftmost non-overlapping occurrence of `pat` by
`repl`, the semantics both of Python `str.replace` and of `re.sub` with a
pattern that matches exactly the literal string `pat` (and a replacement
template without backslashes).  For the empty pattern it follows `re.sub`,
which inserts the replacement at every position.  `fuel` only serves
termination; any `fuel ≥ s.length + 1` gives the same result. -/
def subLiteralAux (pat repl : List Char) : Nat → List Char → List Char
  | 0, s => s
  | _ + 1, [] => if pat = [] then repl else []
  | fuel + 1, c :: cs =>
    if pat ≠ [] ∧ pat.isPrefixOf (c :: cs) then
      repl ++ subLiteralAux pat repl fuel ((c :: cs).drop pat.length)
    else if pat = [] then
      repl ++ c :: subLiteralAux pat repl fuel cs
    else
      c :: subLiteralAux pat repl fuel cs

/-- Python `re.sub` for a literal pattern / `str.replace` (all occurrences). -/
def subLiteral (pat repl s : String) : String :=
  String.mk (subLiteralAux pat.data repl.data (s.data.length + 1) s.data)

/-! ## update_todo_list.py : `parse_markdown_checklist` / `todo_list_to_markdown` -/

/-- Todo status, from `update_todo_list.py` (`TodoStatus`). -/
inductive TodoStatus where
  | pending
  | in_progress
  | completed
deriving DecidableEq

/-- A todo item, from `update_todo_list.py` (`TodoItem`).  The `id` field of
the source (an md5 hash of content + status) is omitted: no claim refers to
it and md5 never influences the parsed statuses or contents. -/
structure TodoItem where
  content : String
  status : TodoStatus
deriving DecidableEq

/-- Status derived from a matched checkbox character
(`parse_markdown_checklist`, lines 42-47). -/
def statusOfChar (c : Char) : TodoStatus :=
  if c = 'x' ∨ c = 'X' then .completed
  else if c = '-' ∨ c = '~' then .in_progress
  else .pending

/-- Deterministic implementation of the anchored Python regex
`^\s*\[\s*([ xX\-\~])\s*\]\s+(.+)$` of `parse_markdown_checklist` applied to
a single line (the tool always applies it to whitespace-stripped lines, on
which this function agrees with the backtracking regex):
leading whitespace, `[`, an interior consisting of whitespace around exactly
one status character, `]`, at least one whitespace character, then a
non-empty content group.  Since the status class and `\s` overlap exactly at
the space character, an all-whitespace interior matches precisely when it
contains a space. -/
def parseTodoLine (line : String) : Option (TodoStatus × String) :=
  match line.data.dropWhile pyWs with
  | '[' :: rest =>
    let interior := rest.takeWhile (fun c => c ≠ ']')
    match rest.dropWhile (fun c => c ≠ ']') with
    | ']' :: rest2 =>
      let nonws := interior.filter (fun c => ¬ pyWs c)
      let status? : Option Char :=
        match nonws with
        | [c] => if c = 'x' ∨ c = 'X' ∨ c = '-' ∨ c = '~' then some c else none
        | [] => if interior.contains ' ' then some ' ' else none
        | _ => none
      match status? with
      | none => none
      | some c =>
        match rest2 with
        | c2 :: _ =>
          if pyWs c2 then
            match rest2.dropWhile pyWs with
            | [] => none
            | cc => some (statusOfChar c, pyStrip (String.mk cc))
          else none
        | [] => none
    | _ => none
  | _ => none

/-- Embeds `parse_markdown_checklist` (update_todo_list.py, lines 26-54): strip each
line, drop blank lines, parse each remaining line with the checkbox regex,
skipping lines that do not match. -/
def parse_markdown_checklist (md : String) : List TodoItem :=
  let lines := ((pySplitlines md).map pyStrip).filter (fun l => l ≠ "")
  lines.filterMap (fun l => (parseTodoLine l).map (fun p => ⟨p.2, p.1⟩))

/-- Embeds `todo_list_to_markdown` (update_todo_list.py, lines 56-66). -/
def todo_list_to_markdown (todos : List TodoItem) : String :=
  joinNl (todos.map (fun t =>
    match t.status with
    | .completed => "[x] " ++ t.content
    | .in_progress => "[-] " ++ t.content
    | .pending => "[ ] " ++ t.content))

/-! ## write_to_file.py : `write_to_file_tool_func` -/

/-- The content-preprocessing step of `write_to_file_tool_func`
(write_to_file.py, lines 33-41), returning the content actually written:
if the stripped content starts and ends with three backticks and splits into
more than two lines, the first and last of those lines are removed, else the
original content is written unchanged. -/
def write_to_file_tool_func (content : String) : String :=
  let stripped := pyStrip content
  if pyStartsWith stripped "```" ∧ pyEndsWith stripped "```" then
    let lines := splitNl stripped
    if lines.length > 2 then joinNl ((lines.drop 1).dropLast) else content
  else content

/-! ### Sanity checks for the primitives (concrete evaluations) -/

example : splitNl "a\nb\n" = ["a", "b", ""] := by decide
example : splitNl "" = [""] := by decide
example : keepLines "a\nb" = ["a\n", "b"] := by decide
example : keepLines "a\nb\n" = ["a\n", "b\n"] := by decide
example : keepLines "" = [] := by decide
example : pySplitlines "a\nb\n" = ["a", "b"] := by decide
example : joinNl ["a", "b", ""] = "a\nb\n" := by decide
example : subLiteral "foo" "baz" "foo bar foo\n" = "baz bar baz\n" := by decide
example : subLiteral "a.b" "z" "axb" = "axb" := by decide
example : pyStrip "  \n x \t" = "x" := by decide
example : parse_markdown_checklist "[x] A\n[-] B\n[ ] C" =
    [⟨"A", .completed⟩, ⟨"B", .in_progress⟩, ⟨"C", .pending⟩] := by decide

/-! ## read_file.py : `count_file_lines`, `read_lines`, `add_line_numbers` -/

/-- Embeds `count_file_lines` (read_file.py, lines 44-50): the number of lines
produced by iterating the file. -/
def count_file_lines (content : String) : Nat := (keepLines content).length

/-- Embeds `read_lines` (read_file.py, lines 53-65): joins the file-iteration lines
whose 0-based index `i` satisfies `startIdx ≤ i ≤ endIdx`. -/
def read_lines (content : String) (endIdx startIdx : Nat) : String :=
  joinAll (((keepLines content).drop startIdx).take (endIdx + 1 - startIdx))

/-- The numbered lines `[f"{start_line + i}: {line}" for i, line in enumerate(lines)]`
of `add_line_numbers`, written as explicit recursion. -/
def numberLines (startLine : Nat) : List String → List String
  | [] => []
  | l :: ls => (toString startLine ++ ": " ++ l) :: numberLines (startLine + 1) ls

/-- Embeds `add_line_numbers` (read_file.py, lines 68-72): split on `'\n'`, prefix
each piece with its absolute line number, and rejoin. -/
def add_line_numbers (content : String) (startLine : Nat) : String :=
  joinNl (numberLines startLine (splitNl content))

/-- The numbered payload the read_file tool produces for one requested range
`s-e` (read_file.py, lines 216-218):
`add_line_numbers(read_lines(path, e-1, s-1), s)`. -/
def rangeNumbered (content : String) (s e : Nat) : String :=
  add_line_numbers (read_lines content (e - 1) (s - 1)) s

/-- Outcome of validating an explicit line range. -/
inductive RangeCheck where
  | accepted (s e : Int)
  | rejected
deriving DecidableEq

/-- The validation applied to an explicit `(start_line, end_line)` pair on the
legacy path of `read_file_tool_func` (read_file.py, lines 170-177); the XML
`line_range` path (lines 149-159) applies the same condition
`start > 0 and end > 0 and start <= end`. -/
def legacyRangeCheck (s e : Int) : RangeCheck :=
  if 0 < s ∧ 0 < e ∧ s ≤ e then .accepted s e else .rejected

/-! ## insert_content.py : `insert_groups_mock`, `insert_content_function` -/

/-- Result of a mutating tool run: the error message, the no-op message, or
the new file content written to disk together with the success message. -/
inductive WriteOutcome where
  | error (msg : String)
  | noop (msg : String)
  | written (newContent : String) (msg : String)
deriving DecidableEq

/-- The content a `WriteOutcome` writes to disk, if any. -/
def WriteOutcome.writtenContent : WriteOutcome → Option String
  | .written c _ => some c
  | _ => none

/-- The message string a `WriteOutcome` returns. -/
def WriteOutcome.message : WriteOutcome → String
  | .error m => m
  | .noop m => m
  | .written _ m => m

/-- Embeds `insert_groups_mock` (insert_content.py, lines 34-77) for the single
insert spec the tool always passes: adjust the index (negative counts from
the end, beyond-the-end clamps to the end) and splice the elements in at the
adjusted position (`updated_lines[index:index] = elements`). -/
def insert_groups_mock (originalLines : List String) (index : Int)
    (elements : List String) : List String :=
  let idx : Int :=
    if index < 0 then max 0 ((originalLines.length : Int) + index + 1)
    else if index > (originalLines.length : Int) then (originalLines.length : Int)
    else index
  (originalLines.take idx.toNat) ++ elements ++ (originalLines.drop idx.toNat)

/-- No-op message of `insert_content_function` (insert_content.py, line 201). -/
def insNoopMsg (path : String) : String :=
  "No changes needed for file '" ++ path ++ "'. Content already matches."

/-- Success message of `insert_content_function` (insert_content.py, line 211). -/
def insSuccessMsg (path : String) : String :=
  "Content successfully inserted into file: '" ++ path ++ "'."

/-- Embeds `insert_content_function` (insert_content.py, lines 111-211), with the
filesystem state passed in as `fileExists` / `fileContent` (for a
non-existent file the Python code leaves `file_content = ""` and
`lines = []`).  The OS-level read/write exception branches are not modelled;
all remaining branches are. -/
def insert_content_function (path : String) (fileExists : Bool)
    (fileContent : String) (line : Int) (content : String) : WriteOutcome :=
  if line < 0 then
    .error "Error: Invalid line number. Line must be a non-negative integer (1-based for insertion)."
  else if fileExists = false ∧ line > 1 then
    .error ("Error: Cannot insert content at line " ++ toString line ++
      " into a non-existent file. For new files, 'line' must be 1 (to insert at the beginning) or equivalent to append.")
  else
    let lines : List String := if fileExists then splitNl fileContent else []
    let insertIndex : Int := max 0 (line - 1)
    let insertIndex : Int :=
      if fileExists = true ∧ insertIndex > (lines.length : Int) then (lines.length : Int)
      else insertIndex
    let updatedLines := insert_groups_mock lines insertIndex (splitNl content)
    let updatedContent := joinNl updatedLines
    let updatedContent :=
      if endsWithNl fileContent = true ∧ endsWithNl updatedContent = false then
        updatedContent ++ "\n"
      else updatedContent
    if fileExists = true ∧ updatedContent = fileContent then
      .noop (insNoopMsg path)
    else
      .written updatedContent (insSuccessMsg path)

/-! ## search_and_replace.py : `escape_reg_exp_mock`, `search_and_replace_function` -/

/-- The characters escaped by `escape_reg_exp_mock`
(the Python character class `[.*+?^${}()|[\]\\]`). -/
def isRegexSpecial (c : Char) : Bool :=
  c = '.' || c = '*' || c = '+' || c = '?' || c = '^' || c = '$' ||
  c = '\x7b' || c = '\x7d' || c = '(' || c = ')' || c = '|' ||
  c = '[' || c = ']' || c = '\\'

/-- Embeds `escape_reg_exp_mock` (search_and_replace.py, lines 47-52): prefix every
regex metacharacter with a backslash, so the escaped pattern matches exactly
the original literal string. -/
def escape_reg_exp_mock (s : String) : String :=
  String.mk (concatAux (s.data.map (fun c =>
    if isRegexSpecial c then ['\\', c] else [c])))

/-- Invalid-range error of `search_and_replace_function`
(search_and_replace.py, line 191). -/
def snrInvalidRangeMsg (s e : Int) : String :=
  "Error: Invalid line range provided. start_line (" ++ toString s ++
    ") is greater than end_line (" ++ toString e ++ ")."

/-- No-op message of `search_and_replace_function` (line 215). -/
def snrNoopMsg (path : String) : String :=
  "No changes needed for '" ++ path ++ "'. Content already matches after search and replace."

/-- Success message of `search_and_replace_function` (line 226). -/
def snrSuccessMsg (path : String) : String :=
  "Successfully performed search and replace on file: '" ++ path ++ "'."

/-- The clamped 0-based start index of the scoped path
(search_and_replace.py, lines 182 and 187):
`max(0, min(start_line - 1 if given else 0, len(lines)))`. -/
def snrStartIdx (len : Nat) (startLine : Option Int) : Int :=
  max 0 (min ((startLine.getD 1) - 1) (len : Int))

/-- The clamped 0-based end index of the scoped path
(search_and_replace.py, lines 184 and 188):
`max(-1, min(end_line - 1 if given else len(lines) - 1, len(lines) - 1))`. -/
def snrEndIdx (len : Nat) (endLine : Option Int) : Int :=
  max (-1) (min ((endLine.getD (len : Int)) - 1) ((len : Int) - 1))

/-- The body of `search_and_replace_function` (search_and_replace.py,
lines 163-226) after the file has been read, parameterised by the substitution
`subFn` that `search_pattern.sub(replace, ·)` denotes (so results proved for
every `subFn` hold for regex and non-regex, case-sensitive and insensitive
invocations alike).  Models: the global branch, the scoped branch with its
clamped indices and invalid-range error, the no-op check, and the write. -/
def snrCore (subFn : String → String) (path : String) (content : String)
    (sl el : Option Int) : WriteOutcome :=
  if sl = none ∧ el = none then
    let newContent := subFn content
    if newContent = content then .noop (snrNoopMsg path)
    else .written newContent (snrSuccessMsg path)
  else
    let lines := keepLines content
    let si := snrStartIdx lines.length sl
    let ei := snrEndIdx lines.length el
    if si > ei ∧ sl ≠ none ∧ el ≠ none then
      .error (snrInvalidRangeMsg (sl.getD 0) (el.getD 0))
    else
      let target := joinAll ((lines.drop si.toNat).take ((ei + 1).toNat - si.toNat))
      let newContent :=
        joinAll (lines.take si.toNat) ++ subFn target ++
          joinAll (lines.drop (ei + 1).toNat)
      if newContent = content then .noop (snrNoopMsg path)
      else .written newContent (snrSuccessMsg path)

/-- Embeds `search_and_replace_function` with `use_regex=false`, `ignore_case=false`:
the compiled pattern `re.compile(escape_reg_exp_mock(search))` matches exactly
the literal string `search`, so its `sub` is `subLiteral search replace`
(for replacement strings without backslashes, which `re.sub` would otherwise
expand as template escapes). -/
def search_and_replace_function (path search replace : String)
    (content : String) (sl el : Option Int) : WriteOutcome :=
  snrCore (subLiteral search replace) path content sl el

/-! ## apply_diff.py : `unescape_html_entities_mock`, `apply_diff_stub`,
`apply_diff_function` -/

/-- Embeds `unescape_html_entities_mock` (apply_diff.py, lines 34-38): the chain of
`str.replace` calls `&lt;→<`, `&gt;→>`, `&amp;→&`, `&quot;→"`, `&#39;→'`,
applied in that order. -/
def unescape_html_entities_mock (s : String) : String :=
  subLiteral "&#39;" "'"
    (subLiteral "&quot;" "\""
      (subLiteral "&amp;" "&"
        (subLiteral "&gt;" ">"
          (subLiteral "&lt;" "<" s))))

/-- Embeds `apply_diff_stub` (apply_diff.py, lines 58-157): `start_line` is required
and must satisfy `0 ≤ start_line - 1 ≤ len(original_lines)`; on success the
stub returns the *whole* diff content as the new file content (line 157) —
the prefix `original_lines[:start_idx]` computed earlier is discarded. -/
def apply_diff_stub (originalContent diffContent : String)
    (startLine : Option Int) : Except String String :=
  match startLine with
  | none => .error "`start_line` is required for this simplified diff stub."
  | some s =>
    if 0 ≤ s - 1 ∧ s - 1 ≤ ((keepLines originalContent).length : Int) then
      .ok diffContent
    else
      .error ("Invalid start_line " ++ toString s ++ ". Line out of bounds.")

/-- Outcome of `apply_diff_function`: error, or the content written.
(The error/success message strings of apply_diff.py are not modelled; no
claim refers to them.) -/
inductive ApplyDiffOutcome where
  | err
  | written (newContent : String)
deriving DecidableEq

/-- Embeds `apply_diff_function` (apply_diff.py, lines 210-270): unescape the diff,
require the file to exist, run the stub, and write the resulting content. -/
def apply_diff_function (fileExists : Bool) (originalContent : String)
    (diff : String) (startLine : Option Int) : ApplyDiffOutcome :=
  let processedDiff := unescape_html_entities_mock diff
  if fileExists = false then .err
  else
    match apply_diff_stub originalContent processedDiff startLine with
    | .error _ => .err
    | .ok c => .written c

/-! ### Sanity checks for the tool embeddings -/

example : rangeNumbered "a\nb\nc\n" 1 2 = "1: a\n2: b\n3: " := by decide
example : rangeNumbered "a\nb" 1 2 = "1: a\n2: b" := by decide
example : insert_content_function "p" true "a\nb\n" 0 "X" =
    .written "X\na\nb\n" (insSuccessMsg "p") := by decide
example : insert_content_function "p" true "a\nb\n" 3 "X" =
    .written "a\nb\nX\n" (insSuccessMsg "p") := by decide
example : search_and_replace_function "p" "foo" "baz" "foo bar foo\n" none none =
    .written "baz bar baz\n" (snrSuccessMsg "p") := by decide
example : search_and_replace_function "p" "a.b" "z" "axb" none none =
    .noop (snrNoopMsg "p") := by decide
example : search_and_replace_function "p" "a" "b" "a\nb\n" (some 4) (some 5) =
    .error (snrInvalidRangeMsg 4 5) := by decide
example : apply_diff_function true "a\nb\nc\n" "X\n" (some 2) = .written "X\n" := by decide
example : write_to_file_tool_func "```python\nx = 1\n```" = "x = 1" := by decide
example : write_to_file_tool_func "plain\ntext" = "plain\ntext" := by decide

/-! ## Computed-content mirrors

For the no-op claims we need to speak about "the computed new content" of a
mutating tool run independently of the returned message.  The two functions
below mirror `insert_content_function` and `snrCore` branch for branch and
return the content the tool compares against the original (`none` on the
error branches, where no content is computed). -/

/-- The `updated_content` computed by `insert_content_function`
(insert_content.py, lines 166-197), `none` on the error branches. -/
def insComputed (fileExists : Bool) (fileContent : String) (line : Int)
    (content : String) : Option String :=
  if line < 0 then none
  else if fileExists = false ∧ line > 1 then none
  else
    let lines : List String := if fileExists then splitNl fileContent else []
    let insertIndex : Int := max 0 (line - 1)
    let insertIndex : Int :=
      if fileExists = true ∧ insertIndex > (lines.length : Int) then (lines.length : Int)
      else insertIndex
    let updatedLines := insert_groups_mock lines insertIndex (splitNl content)
    let updatedContent := joinNl updatedLines
    let updatedContent :=
      if endsWithNl fileContent = true ∧ endsWithNl updatedContent = false then
        updatedContent ++ "\n"
      else updatedContent
    some updatedContent

/-- The `new_content` computed by `search_and_replace_function`
(search_and_replace.py, lines 174-211), `none` on the invalid-range branch. -/
def snrComputed (subFn : String → String) (content : String)
    (sl el : Option Int) : Option String :=
  if sl = none ∧ el = none then some (subFn content)
  else
    let lines := keepLines content
    let si := snrStartIdx lines.length sl
    let ei := snrEndIdx lines.length el
    if si > ei ∧ sl ≠ none ∧ el ≠ none then none
    else
      some (joinAll (lines.take si.toNat) ++
        subFn (joinAll ((lines.drop si.toNat).take ((ei + 1).toNat - si.toNat))) ++
        joinAll (lines.drop (ei + 1).toNat))

/-- Does a `search_and_replace` occurrence scan find the literal pattern
anywhere in the text (at any suffix)? -/
def hasOccur (pat : List Char) : List Char → Bool
  | [] => pat.isPrefixOf []
  | c :: cs => pat.isPrefixOf (c :: cs) || hasOccur pat cs

/-- Is the outcome an error? -/
def WriteOutcome.isErr : WriteOutcome → Bool
  | .error _ => true
  | _ => false

/-! ## Helper lemmas -/

theorem strData_append (s t : String) : (s ++ t).data = s.data ++ t.data := rfl

theorem strNe_of_head (s t : String) (h : s.data.head? ≠ t.data.head?) : s ≠ t :=
  fun he => h (he ▸ rfl)

theorem insNoopMsg_head (p : String) : (insNoopMsg p).data.head? = some 'N' := rfl

theorem insSuccessMsg_head (p : String) : (insSuccessMsg p).data.head? = some 'C' := rfl

theorem snrNoopMsg_head (p : String) : (snrNoopMsg p).data.head? = some 'N' := rfl

theorem snrSuccessMsg_head (p : String) : (snrSuccessMsg p).data.head? = some 'S' := rfl

theorem errPrefix_head (d : String) : ("Error: " ++ d).data.head? = some 'E' := rfl

/-- Dispatch lemma: `snrCore` is the no-op/write dispatch over `snrComputed`. -/
theorem snrCore_eq (subFn : String → String) (p fc : String) (sl el : Option Int) :
    snrCore subFn p fc sl el =
      match snrComputed subFn fc sl el with
      | none => .error (snrInvalidRangeMsg (sl.getD 0) (el.getD 0))
      | some nc =>
        if nc = fc then .noop (snrNoopMsg p) else .written nc (snrSuccessMsg p) := by
  unfold snrCore snrComputed
  by_cases h1 : sl = none ∧ el = none
  · simp only [if_pos h1]
  · simp only [if_neg h1]
    by_cases h2 : snrStartIdx (keepLines fc).length sl > snrEndIdx (keepLines fc).length el ∧
        sl ≠ none ∧ el ≠ none
    · simp only [if_pos h2]
    · simp only [if_neg h2]

/-- Dispatch lemma: `insert_content_function` is the no-op/write dispatch over `insComputed`. -/
theorem insert_content_eq (p : String) (fe : Bool) (fc : String) (line : Int)
    (c u : String) (h : insComputed fe fc line c = some u) :
    insert_content_function p fe fc line c =
      if fe = true ∧ u = fc then .noop (insNoopMsg p)
      else .written u (insSuccessMsg p) := by
  unfold insComputed at h
  unfold insert_content_function
  by_cases h1 : line < 0
  · simp only [if_pos h1] at h; exact absurd h (by simp)
  · simp only [if_neg h1] at h ⊢
    by_cases h2 : fe = false ∧ line > 1
    · simp only [if_pos h2] at h; exact absurd h (by simp)
    · simp only [if_neg h2] at h ⊢
      rw [Option.some_inj] at h
      rw [h]

/-! ## Claim C9 (confirmed) -/

/-- C9: parsing the todo input `"[x] A\n[-] B\n[ ] C"` yields exactly three
items with statuses completed, in_progress, pending (contents A, B, C), and
serializing the parsed list back to markdown reproduces the same three
checkbox lines. -/
theorem c9_todo_roundtrip :
    parse_markdown_checklist "[x] A\n[-] B\n[ ] C" =
      [⟨"A", .completed⟩, ⟨"B", .in_progress⟩, ⟨"C", .pending⟩] ∧
    todo_list_to_markdown [⟨"A", .completed⟩, ⟨"B", .in_progress⟩, ⟨"C", .pending⟩] =
      "[x] A\n[-] B\n[ ] C" := by decide

/-! ## Claim C10 (confirmed) -/

/-- C10: `write_to_file` silently removes the first and last line of the
whitespace-stripped content exactly when that stripped content starts and
ends with three backticks and spans more than two lines; any other content
is written byte-for-byte unchanged. -/
theorem c10_write_preprocessing (content : String) :
    (pyStartsWith (pyStrip content) "```" = true ∧
        pyEndsWith (pyStrip content) "```" = true ∧
        (splitNl (pyStrip content)).length > 2 →
      write_to_file_tool_func content =
        joinNl (((splitNl (pyStrip content)).drop 1).dropLast)) ∧
    (¬(pyStartsWith (pyStrip content) "```" = true ∧
        pyEndsWith (pyStrip content) "```" = true ∧
        (splitNl (pyStrip content)).length > 2) →
      write_to_file_tool_func content = content) := by
  unfold write_to_file_tool_func
  constructor
  · rintro ⟨h1, h2, h3⟩
    simp [h1, h2, h3]
  · intro h
    by_cases h1 : pyStartsWith (pyStrip content) "```" = true
    · by_cases h2 : pyEndsWith (pyStrip content) "```" = true
      · have h3 : ¬ (splitNl (pyStrip content)).length > 2 := fun hl => h ⟨h1, h2, hl⟩
        simp [h1, h2, h3]
      · simp [h2]
    · simp [h1]

/-- Witness for C10: both branches exercised at concrete inputs — a fenced
code block loses its fence lines, ordinary content is written unchanged. -/
theorem c10_write_preprocessing_witness :
    write_to_file_tool_func "```python\nx = 1\n```" = "x = 1" ∧
    write_to_file_tool_func "plain\ntext" = "plain\ntext" :=
  ⟨((c10_write_preprocessing "```python\nx = 1\n```").1 (by decide)).trans (by decide),
   (c10_write_preprocessing "plain\ntext").2 (by decide)⟩

/-! ## Claim C8 (corrected) -/

/-- C8 counterexample: on a file `"line1\nline2\nline3\n"`, inserting
`"NEW\n"` at line 2 does NOT produce the claimed `"line1\nNEW\nline2\nline3\n"`:
the inserted content's trailing newline becomes an additional empty element
of `content.split('\n')`, so an extra blank line appears after `NEW`. -/
theorem c8_counterexample :
    insert_content_function "a.txt" true "line1\nline2\nline3\n" 2 "NEW\n" =
      .written "line1\nNEW\n\nline2\nline3\n" (insSuccessMsg "a.txt") ∧
    "line1\nNEW\n\nline2\nline3\n" ≠ "line1\nNEW\nline2\nline3\n" := by decide

/-- C8 amended: inserting `"NEW\n"` at line 2 of `"line1\nline2\nline3\n"`
writes `"line1\nNEW\n\nline2\nline3\n"` — the lines before line 2 are kept,
`NEW` is inserted before the old line 2, and the trailing newline of the
inserted content contributes one extra empty line. -/
theorem c8_insert_example_amended :
    insert_content_function "a.txt" true "line1\nline2\nline3\n" 2 "NEW\n" =
      .written "line1\nNEW\n\nline2\nline3\n" (insSuccessMsg "a.txt") := by decide

/-! ## Claim C3 (corrected) -/

/-- C3 counterexample: on the 2-line file `"a\nb\n"` (N = 2), inserting
`"X"` at `line = 0` and at `line = N + 1 = 3` give different results, and
`line = 0` prepends instead of appending: `max(0, 0 - 1) = 0`, so the
insertion index is the beginning of the file. -/
theorem c3_counterexample :
    insert_content_function "p" true "a\nb\n" 0 "X" =
      .written "X\na\nb\n" (insSuccessMsg "p") ∧
    insert_content_function "p" true "a\nb\n" 3 "X" =
      .written "a\nb\nX\n" (insSuccessMsg "p") ∧
    insert_content_function "p" true "a\nb\n" 0 "X" ≠
      insert_content_function "p" true "a\nb\n" 3 "X" := by decide

/-- C3 amended: `line = 0` is equivalent to `line = 1` — the content is
inserted before the first line — for every existing file and content;
appending after the last line is what `line = N + 1` does (shown at the
2-line file `"a\nb\n"`, N + 1 = 3). -/
theorem c3_insert_line_zero_amended :
    (∀ (p fc c : String),
      insert_content_function p true fc 0 c = insert_content_function p true fc 1 c) ∧
    insert_content_function "p" true "a\nb\n" 1 "X" =
      .written "X\na\nb\n" (insSuccessMsg "p") ∧
    insert_content_function "p" true "a\nb\n" 3 "X" =
      .written "a\nb\nX\n" (insSuccessMsg "p") :=
  ⟨fun _ _ _ => rfl, by decide, by decide⟩

/-! ## Claim C2 (corrected) -/

/-- C2 counterexample: applying a diff with `start_line = 2` to the file
`"a\nb\nc\n"` does NOT keep line 1: `apply_diff_stub` returns the whole diff
content as the new file (apply_diff.py line 157), so the file becomes
`"X\n"`, not the claimed `"a\nX\n"`. -/
theorem c2_counterexample :
    apply_diff_function true "a\nb\nc\n" "X\n" (some 2) = .written "X\n" ∧
    "X\n" ≠ "a\nX\n" := by decide

/-- C2 amended: for every existing file and every in-bounds `start_line`
(`1 ≤ start_line ≤ N + 1`), apply_diff replaces the ENTIRE file content with
the HTML-entity-unescaped diff content; `start_line` is used only for bounds
validation and no original line is preserved. -/
theorem c2_apply_diff_amended (fc diff : String) (s : Int)
    (h1 : 1 ≤ s) (h2 : s ≤ (count_file_lines fc : Int) + 1) :
    apply_diff_function true fc diff (some s) =
      .written (unescape_html_entities_mock diff) := by
  unfold apply_diff_function apply_diff_stub
  have hb : (0 : Int) ≤ s - 1 ∧ s - 1 ≤ ((keepLines fc).length : Int) := by
    unfold count_file_lines at h2
    omega
  simp [hb]

/-- Witness for C2: the amended theorem at the counterexample input, plus an
input showing the HTML unescaping (`&lt;` becomes `<` in the written file). -/
theorem c2_apply_diff_witness :
    apply_diff_function true "a\nb\nc\n" "p &lt; q\n" (some 2) =
      .written "p < q\n" :=
  (c2_apply_diff_amended "a\nb\nc\n" "p &lt; q\n" 2 (by decide) (by decide)).trans
    (by decide)

/-! ## Claim C1 (corrected) -/

/-- C1 counterexample: reading lines 1-2 of the 3-line file `"a\nb\nc\n"`
returns `"1: a\n2: b\n3: "` — lines 1 and 2 correctly annotated, but
followed by an extra line annotated `3: ` that is not among the requested
lines (the slice ends with `'\n'`, so `split('\n')` yields a final empty
piece which `add_line_numbers` also numbers). -/
theorem c1_counterexample :
    rangeNumbered "a\nb\nc\n" 1 2 = "1: a\n2: b\n3: " ∧
    rangeNumbered "a\nb\nc\n" 1 2 ≠ joinNl (numberLines 1 ["a", "b"]) := by decide

/-! ## Claim C4 (confirmed) -/

/-- If the literal pattern occurs nowhere in the text, the literal
substitution scan leaves the text unchanged (any fuel). -/
theorem subLiteralAux_no_occur (pat repl : List Char) (hp : pat ≠ []) :
    ∀ (fuel : Nat) (s : List Char), hasOccur pat s = false →
      subLiteralAux pat repl fuel s = s := by
  intro fuel
  induction fuel with
  | zero => intro s _; rfl
  | succ n ih =>
    intro s h
    cases s with
    | nil => simp [subLiteralAux, hp]
    | cons c cs =>
      rw [hasOccur, Bool.or_eq_false_iff] at h
      rw [subLiteralAux]
      simp only [h.1, Bool.false_eq_true, and_false, if_false, hp, if_neg]
      simp [ih cs h.2]

/-- String-level version: a literal search string that occurs nowhere in the
content leaves the content unchanged under `subLiteral`. -/
theorem subLiteral_no_occur (pat repl s : String) (hp : pat ≠ "")
    (h : hasOccur pat.data s.data = false) : subLiteral pat repl s = s := by
  have hd : pat.data ≠ [] := by
    intro hnil
    apply hp
    cases pat with
    | mk d => cases hnil; rfl
  unfold subLiteral
  rw [subLiteralAux_no_occur pat.data repl.data hd _ s.data h]

/-- C4: with `use_regex=false` the search string is matched literally.
General part: a search string that does not occur literally in the file
(regardless of any regex metacharacters it contains) changes nothing, and
the run is reported as a no-op.  Concrete parts: every non-overlapping
occurrence is replaced (`"foo bar foo\n" → "baz bar baz\n"`); the literal
`a.b` does not match `axb` but does match `a.b` itself. -/
theorem c4_literal_search :
    (∀ (p search repl fc : String), search ≠ "" →
      hasOccur search.data fc.data = false →
      search_and_replace_function p search repl fc none none =
        .noop (snrNoopMsg p)) ∧
    search_and_replace_function "f.txt" "foo" "baz" "foo bar foo\n" none none =
      .written "baz bar baz\n" (snrSuccessMsg "f.txt") ∧
    search_and_replace_function "f.txt" "a.b" "z" "axb" none none =
      .noop (snrNoopMsg "f.txt") ∧
    search_and_replace_function "f.txt" "a.b" "z" "a.b" none none =
      .written "z" (snrSuccessMsg "f.txt") := by
  refine ⟨?_, by decide, by decide, by decide⟩
  intro p search repl fc hne hocc
  unfold search_and_replace_function snrCore
  simp [subLiteral_no_occur search repl fc hne hocc]

/-- Witness for C4's general clause: searching for the absent literal `a.b`
in `"axb\nayb"` is a no-op (its metacharacter `.` matches nothing). -/
theorem c4_literal_search_witness :
    search_and_replace_function "w" "a.b" "z" "axb\nayb" none none =
      .noop (snrNoopMsg "w") :=
  c4_literal_search.1 "w" "a.b" "z" "axb\nayb" (by decide) (by decide)

/-! ## Claim C6 (corrected) -/

/-- C6 counterexample: on the 2-line file `"a\nb\n"`, the explicit range
`start_line = 4, end_line = 5` satisfies `start ≤ end`, yet
search_and_replace fails with the invalid-range error (the clamped indices
collapse because `start_line` lies beyond the end of the file). -/
theorem c6_counterexample :
    search_and_replace_function "p" "a" "b" "a\nb\n" (some 4) (some 5) =
      .error (snrInvalidRangeMsg 4 5) ∧ (4 : Int) ≤ 5 := by decide

/-- The scoped path of search_and_replace computes no content exactly when
the clamped start index exceeds the clamped end index (both bounds given). -/
theorem snrComputed_none_iff (subFn : String → String) (fc : String) (s e : Int) :
    snrComputed subFn fc (some s) (some e) = none ↔
      snrStartIdx (keepLines fc).length (some s) >
        snrEndIdx (keepLines fc).length (some e) := by
  unfold snrComputed
  simp

/-- C6 amended: when both bounds are supplied, `start > end` always fails
with the invalid-range error carrying the bounds verbatim (never swapped);
but for positive bounds the error occurs exactly when `start > end` OR
`start` exceeds the file's line count (out-of-range bounds are silently
clamped, so e.g. `start = 4, end = 5` on a 2-line file is also rejected).
The read_file legacy range is accepted exactly when both bounds are positive
and `start ≤ end` (so e.g. `start = 0 ≤ end` is rejected there too). -/
theorem c6_range_validation_amended :
    (∀ (subFn : String → String) (p fc : String) (s e : Int), e < s →
      snrCore subFn p fc (some s) (some e) = .error (snrInvalidRangeMsg s e)) ∧
    (∀ (subFn : String → String) (p fc : String) (s e : Int), 1 ≤ s → 1 ≤ e →
      ((snrCore subFn p fc (some s) (some e)).isErr = true ↔
        (e < s ∨ (count_file_lines fc : Int) < s))) ∧
    (∀ s e : Int, legacyRangeCheck s e = .accepted s e ↔ 0 < s ∧ 0 < e ∧ s ≤ e) := by
  refine ⟨?_, ?_, ?_⟩
  · intro subFn p fc s e hlt
    have hnone : snrComputed subFn fc (some s) (some e) = none := by
      rw [snrComputed_none_iff]
      unfold snrStartIdx snrEndIdx
      simp only [Option.getD_some, max_def, min_def]
      split_ifs <;> omega
    rw [snrCore_eq, hnone]
    simp
  · intro subFn p fc s e hs he
    rw [snrCore_eq]
    cases hc : snrComputed subFn fc (some s) (some e) with
    | none =>
      rw [snrComputed_none_iff] at hc
      unfold snrStartIdx snrEndIdx at hc
      simp only [WriteOutcome.isErr, true_iff]
      unfold count_file_lines
      simp only [Option.getD_some, max_def, min_def] at hc
      split_ifs at hc <;> omega
    | some nc =>
      have hc2 : ¬ (snrStartIdx (keepLines fc).length (some s) >
          snrEndIdx (keepLines fc).length (some e)) := by
        intro hgt
        rw [← snrComputed_none_iff subFn fc s e] at hgt
        rw [hc] at hgt
        exact Option.noConfusion hgt
      unfold snrStartIdx snrEndIdx at hc2
      unfold count_file_lines
      have : ¬ (e < s ∨ ((keepLines fc).length : Int) < s) := by
        simp only [Option.getD_some, max_def, min_def] at hc2
        split_ifs at hc2 <;> omega
      simp only [this, iff_false]
      split <;> simp [WriteOutcome.isErr]
  · intro s e
    unfold legacyRangeCheck
    split_ifs with h <;> simp [h]

/-- Witness for C6: a range with `start > end` is rejected with the bounds
reported verbatim (not swapped). -/
theorem c6_range_validation_witness :
    snrCore (subLiteral "z" "y") "w" "a\nb\n" (some 5) (some 2) =
      .error (snrInvalidRangeMsg 5 2) :=
  c6_range_validation_amended.1 (subLiteral "z" "y") "w" "a\nb\n" 5 2 (by decide)

/-! ## Claim C5 (corrected) -/

/-- C5 counterexample: scoping the replacement of `"foo\n"` by `"X"` to the
range `[1, 1]` of `"foo\nbar\n"` rewrites the file to `"Xbar\n"`: the
replacement removed the newline terminating the addressed section, so line 2
(`"bar\n"`), although outside the range, no longer appears as a line of the
resulting file — it merged with the substituted section. -/
theorem c5_counterexample :
    search_and_replace_function "p" "foo\n" "X" "foo\nbar\n" (some 1) (some 1) =
      .written "Xbar\n" (snrSuccessMsg "p") ∧
    keepLines "foo\nbar\n" = ["foo\n", "bar\n"] ∧
    keepLines "Xbar\n" = ["Xbar\n"] ∧
    ¬ ("bar\n" ∈ keepLines "Xbar\n") := by decide

/-- C5 amended: a scoped run that writes produces exactly the original lines
before the range, then the substituted section, then the original lines
after the range — the byte regions outside the addressed range are preserved
verbatim (as a prefix and a suffix of the result), though a line just after
the range can merge with the section when the substitution removes the
section's trailing newline. -/
theorem c5_frame_amended (subFn : String → String) (p fc : String)
    (sl el : Option Int) (nc : String)
    (hsc : ¬ (sl = none ∧ el = none))
    (h : snrCore subFn p fc sl el = .written nc (snrSuccessMsg p)) :
    nc =
      joinAll ((keepLines fc).take (snrStartIdx (keepLines fc).length sl).toNat) ++
        subFn (joinAll (((keepLines fc).drop (snrStartIdx (keepLines fc).length sl).toNat).take
          ((snrEndIdx (keepLines fc).length el + 1).toNat -
            (snrStartIdx (keepLines fc).length sl).toNat))) ++
        joinAll ((keepLines fc).drop (snrEndIdx (keepLines fc).length el + 1).toNat) ∧
    (joinAll ((keepLines fc).take (snrStartIdx (keepLines fc).length sl).toNat)).data <+:
      nc.data ∧
    (joinAll ((keepLines fc).drop (snrEndIdx (keepLines fc).length el + 1).toNat)).data <:+
      nc.data := by
  rw [snrCore_eq] at h
  cases hc : snrComputed subFn fc sl el with
  | none => rw [hc] at h; exact absurd h (by simp)
  | some u =>
    rw [hc] at h
    dsimp only at h
    by_cases hu : u = fc
    · rw [if_pos hu] at h; exact absurd h (by simp)
    · rw [if_neg hu] at h
      have hnc : nc = u := by
        cases h
        rfl
      unfold snrComputed at hc
      rw [if_neg hsc] at hc
      by_cases hrange : snrStartIdx (keepLines fc).length sl >
          snrEndIdx (keepLines fc).length el ∧ sl ≠ none ∧ el ≠ none
      · rw [if_pos hrange] at hc; exact absurd hc (by simp)
      · rw [if_neg hrange] at hc
        rw [Option.some_inj] at hc
        subst hnc
        refine ⟨hc.symm, ?_, ?_⟩
        · rw [← hc, strData_append, strData_append, List.append_assoc]
          exact List.prefix_append _ _
        · rw [← hc, strData_append]
          exact List.suffix_append _ _

/-- Witness for C5: replacing `"a"` by `"b"` within the range `[1, 1]` of
`"a\nc\n"` writes `"b\nc\n"`, whose decomposition keeps line 2 verbatim. -/
theorem c5_frame_witness :
    "b\nc\n" =
      joinAll ((keepLines "a\nc\n").take
          (snrStartIdx (keepLines "a\nc\n").length (some 1)).toNat) ++
        subLiteral "a" "b"
          (joinAll (((keepLines "a\nc\n").drop
            (snrStartIdx (keepLines "a\nc\n").length (some 1)).toNat).take
            ((snrEndIdx (keepLines "a\nc\n").length (some 1) + 1).toNat -
              (snrStartIdx (keepLines "a\nc\n").length (some 1)).toNat))) ++
        joinAll ((keepLines "a\nc\n").drop
          (snrEndIdx (keepLines "a\nc\n").length (some 1) + 1).toNat) ∧
    (joinAll ((keepLines "a\nc\n").take
      (snrStartIdx (keepLines "a\nc\n").length (some 1)).toNat)).data <+:
        ("b\nc\n" : String).data ∧
    (joinAll ((keepLines "a\nc\n").drop
      (snrEndIdx (keepLines "a\nc\n").length (some 1) + 1).toNat)).data <:+
        ("b\nc\n" : String).data :=
  c5_frame_amended (subLiteral "a" "b") "p" "a\nc\n" (some 1) (some 1) "b\nc\n"
    (by simp) (by decide)

/-! ## Claim C7 (confirmed) -/

/-- C7: whenever the computed new content of search_and_replace or of
insert_content (on an existing file) is byte-identical to the original, the
tool reports the no-op message and writes nothing; the no-op message is
distinct from the success message and from every error message (all error
messages of both tools begin with `"Error: "`, the no-op messages with
`"No"`). -/
theorem c7_noop_detection :
    (∀ (subFn : String → String) (p fc : String) (sl el : Option Int),
      snrComputed subFn fc sl el = some fc →
        snrCore subFn p fc sl el = .noop (snrNoopMsg p) ∧
        (snrCore subFn p fc sl el).writtenContent = none) ∧
    (∀ (p fc : String) (line : Int) (c : String),
      insComputed true fc line c = some fc →
        insert_content_function p true fc line c = .noop (insNoopMsg p) ∧
        (insert_content_function p true fc line c).writtenContent = none) ∧
    (∀ p : String,
      insNoopMsg p ≠ insSuccessMsg p ∧
      snrNoopMsg p ≠ snrSuccessMsg p ∧
      (∀ d : String, insNoopMsg p ≠ "Error: " ++ d) ∧
      (∀ d : String, snrNoopMsg p ≠ "Error: " ++ d)) := by
  refine ⟨?_, ?_, ?_⟩
  · intro subFn p fc sl el h
    have hcore : snrCore subFn p fc sl el = .noop (snrNoopMsg p) := by
      rw [snrCore_eq, h]
      simp
    exact ⟨hcore, by rw [hcore]; rfl⟩
  · intro p fc line c h
    have hcore : insert_content_function p true fc line c = .noop (insNoopMsg p) := by
      rw [insert_content_eq p true fc line c fc h]
      simp
    exact ⟨hcore, by rw [hcore]; rfl⟩
  · intro p
    refine ⟨?_, ?_, ?_, ?_⟩
    · exact strNe_of_head _ _ (by rw [insNoopMsg_head, insSuccessMsg_head]; decide)
    · exact strNe_of_head _ _ (by rw [snrNoopMsg_head, snrSuccessMsg_head]; decide)
    · intro d
      exact strNe_of_head _ _ (by rw [insNoopMsg_head, errPrefix_head]; decide)
    · intro d
      exact strNe_of_head _ _ (by rw [snrNoopMsg_head, errPrefix_head]; decide)

/-- Witness for C7: a search with no match computes content identical to the
original, and the tool reports the no-op and writes nothing. -/
theorem c7_noop_detection_witness :
    snrCore (subLiteral "zz" "y") "w" "abc" none none = .noop (snrNoopMsg "w") ∧
    (snrCore (subLiteral "zz" "y") "w" "abc" none none).writtenContent = none :=
  c7_noop_detection.1 (subLiteral "zz" "y") "w" "abc" none none (by decide)

/-! ## Claim C1 (corrected): supporting lemmas

A text file is uniquely described by the list of its line bodies (no `'\n'`
inside) together with a flag telling whether a final newline terminates the
last line; `bodiesContent` rebuilds the file content from that description. -/

/-- File content with line bodies `bodies`; `trailing` tells whether the file
ends with a final newline (an empty file is `bodies = []`). -/
def bodiesContent (bodies : List String) (trailing : Bool) : String :=
  if trailing then joinAll (bodies.map (fun b => b ++ "\n"))
  else joinNl bodies

theorem strMk_data (s : String) : String.mk s.data = s := rfl

theorem strMk_append (s : String) (l : List Char) :
    String.mk (s.data ++ l) = s ++ String.mk l := rfl

theorem strAppend_empty (s : String) : s ++ "" = s := by
  cases s with
  | mk d =>
    show String.mk (d ++ []) = String.mk d
    rw [List.append_nil]

theorem strData_ne_nil (s : String) (h : s ≠ "") : s.data ≠ [] := by
  intro hd
  apply h
  cases s with
  | mk d => cases hd; rfl

theorem keepLinesAux_line (b rest : List Char) (hb : ('\n' : Char) ∉ b) :
    keepLinesAux (b ++ '\n' :: rest) = (b ++ ['\n']) :: keepLinesAux rest := by
  induction b with
  | nil => simp [keepLinesAux]
  | cons c b ih =>
    simp only [List.mem_cons, not_or] at hb
    have hc : ¬ c = '\n' := fun h => hb.1 h.symm
    rw [List.cons_append, keepLinesAux, if_neg hc, ih hb.2]
    simp

theorem keepLinesAux_noNl (b : List Char) (hne : b ≠ []) (hb : ('\n' : Char) ∉ b) :
    keepLinesAux b = [b] := by
  induction b with
  | nil => exact absurd rfl hne
  | cons c b ih =>
    simp only [List.mem_cons, not_or] at hb
    have hc : ¬ c = '\n' := fun h => hb.1 h.symm
    cases b with
    | nil => simp [keepLinesAux, hc]
    | cons d b2 =>
      rw [keepLinesAux, if_neg hc, ih (by simp) hb.2]

theorem splitNlAux_line (b rest : List Char) (hb : ('\n' : Char) ∉ b) :
    splitNlAux (b ++ '\n' :: rest) = b :: splitNlAux rest := by
  induction b with
  | nil => simp [splitNlAux]
  | cons c b ih =>
    simp only [List.mem_cons, not_or] at hb
    have hc : ¬ c = '\n' := fun h => hb.1 h.symm
    rw [List.cons_append, splitNlAux, if_neg hc, ih hb.2]

theorem splitNlAux_noNl (b : List Char) (hb : ('\n' : Char) ∉ b) :
    splitNlAux b = [b] := by
  induction b with
  | nil => rfl
  | cons c b ih =>
    simp only [List.mem_cons, not_or] at hb
    have hc : ¬ c = '\n' := fun h => hb.1 h.symm
    rw [splitNlAux, if_neg hc, ih hb.2]

theorem concatAux_append (xs ys : List (List Char)) :
    concatAux (xs ++ ys) = concatAux xs ++ concatAux ys := by
  induction xs with
  | nil => rfl
  | cons x xs ih => rw [List.cons_append, concatAux, concatAux, ih, List.append_assoc]

theorem joinNlAux_cons_of_ne (p : List Char) (ls : List (List Char)) (h : ls ≠ []) :
    joinNlAux (p :: ls) = p ++ '\n' :: joinNlAux ls := by
  cases ls with
  | nil => exact absurd rfl h
  | cons q qs => rfl

theorem joinNlAux_concat (ps : List (List Char)) (l : List Char) :
    joinNlAux (ps ++ [l]) = concatAux (ps.map (fun p => p ++ ['\n'])) ++ l := by
  induction ps with
  | nil => rfl
  | cons p ps ih =>
    rw [List.cons_append, joinNlAux_cons_of_ne _ _ (by simp), ih, List.map_cons,
      concatAux]
    simp [List.append_assoc]

theorem splitNlAux_pieces (ps : List (List Char)) (last : List Char)
    (hps : ∀ p ∈ ps, ('\n' : Char) ∉ p) (hl : ('\n' : Char) ∉ last) :
    splitNlAux (concatAux (ps.map (fun p => p ++ ['\n'])) ++ last) = ps ++ [last] := by
  induction ps with
  | nil => simpa [concatAux] using splitNlAux_noNl last hl
  | cons p ps ih =>
    have h1 : concatAux ((p :: ps).map (fun q => q ++ ['\n'])) ++ last =
        p ++ '\n' :: (concatAux (ps.map (fun q => q ++ ['\n'])) ++ last) := by
      simp [concatAux, List.append_assoc]
    rw [h1, splitNlAux_line p _ (hps p (by simp)),
      ih (fun q hq => hps q (by simp [hq]))]
    simp

theorem keepLinesAux_pieces (ps : List (List Char)) (last : List Char)
    (hps : ∀ p ∈ ps, ('\n' : Char) ∉ p) (hl : ('\n' : Char) ∉ last) :
    keepLinesAux (concatAux (ps.map (fun p => p ++ ['\n'])) ++ last) =
      ps.map (fun p => p ++ ['\n']) ++ (if last = [] then [] else [last]) := by
  induction ps with
  | nil =>
    cases hlast : last with
    | nil => simp [concatAux, keepLinesAux]
    | cons c cs =>
      rw [← hlast]
      simpa [concatAux, hlast] using keepLinesAux_noNl last (by simp [hlast]) hl
  | cons p ps ih =>
    have h1 : concatAux ((p :: ps).map (fun q => q ++ ['\n'])) ++ last =
        p ++ '\n' :: (concatAux (ps.map (fun q => q ++ ['\n'])) ++ last) := by
      simp [concatAux, List.append_assoc]
    rw [h1, keepLinesAux_line p _ (hps p (by simp)),
      ih (fun q hq => hps q (by simp [hq]))]
    simp

theorem numberLines_append (st : Nat) (xs ys : List String) :
    numberLines st (xs ++ ys) = numberLines st xs ++ numberLines (st + xs.length) ys := by
  induction xs generalizing st with
  | nil => simp [numberLines]
  | cons x xs ih =>
    rw [List.cons_append, numberLines, numberLines, ih (st + 1), List.cons_append,
      List.length_cons]
    have : st + 1 + xs.length = st + (xs.length + 1) := by omega
    rw [this]

theorem map_data_lines (sl : List String) :
    (sl.map (fun b => b ++ "\n")).map String.data =
      (sl.map String.data).map (fun p => p ++ ['\n']) := by
  induction sl with
  | nil => rfl
  | cons b bs ih =>
    rw [List.map_cons, List.map_cons, List.map_cons, List.map_cons, ih]
    rfl

theorem map_mk_data (sl : List String) : (sl.map String.data).map String.mk = sl := by
  induction sl with
  | nil => rfl
  | cons b bs ih => rw [List.map_cons, List.map_cons, ih, strMk_data]

theorem mem_map_data_noNl (sl : List String) (h : ∀ b ∈ sl, ('\n' : Char) ∉ b.data) :
    ∀ p ∈ sl.map String.data, ('\n' : Char) ∉ p := by
  intro p hp
  rcases List.mem_map.mp hp with ⟨b, hb, rfl⟩
  exact h b hb

/-- Splitting the concatenation of newline-terminated lines on `'\n'` yields
the line bodies followed by one extra empty piece. -/
theorem splitNl_fullLines (slice : List String)
    (h : ∀ b ∈ slice, ('\n' : Char) ∉ b.data) :
    splitNl (joinAll (slice.map (fun b => b ++ "\n"))) = slice ++ [""] := by
  unfold splitNl joinAll
  rw [map_data_lines, show concatAux ((slice.map String.data).map (fun p => p ++ ['\n'])) =
      concatAux ((slice.map String.data).map (fun p => p ++ ['\n'])) ++ [] from
      (List.append_nil _).symm,
    splitNlAux_pieces _ [] (mem_map_data_noNl slice h) (by simp),
    List.map_append, map_mk_data]
  rfl

/-- Splitting newline-terminated lines followed by a newline-free final
segment yields the bodies followed by that segment. -/
theorem splitNl_fullLines_last (slice : List String) (lb : String)
    (h : ∀ b ∈ slice, ('\n' : Char) ∉ b.data) (hlb : ('\n' : Char) ∉ lb.data) :
    splitNl (joinAll (slice.map (fun b => b ++ "\n") ++ [lb])) = slice ++ [lb] := by
  unfold splitNl joinAll
  rw [List.map_append, map_data_lines, concatAux_append]
  simp only [List.map_cons, List.map_nil, concatAux, List.append_nil]
  rw [splitNlAux_pieces _ lb.data (mem_map_data_noNl slice h) hlb,
    List.map_append, map_mk_data]
  rfl

/-- The keepends lines of a file whose content ends with a newline are
exactly the newline-terminated bodies. -/
theorem keepLines_bodiesContent_true (bodies : List String)
    (hnl : ∀ b ∈ bodies, ('\n' : Char) ∉ b.data) :
    keepLines (bodiesContent bodies true) = bodies.map (fun b => b ++ "\n") := by
  unfold bodiesContent keepLines joinAll
  rw [if_pos rfl, map_data_lines,
    show concatAux ((bodies.map String.data).map (fun p => p ++ ['\n'])) =
      concatAux ((bodies.map String.data).map (fun p => p ++ ['\n'])) ++ [] from
      (List.append_nil _).symm,
    keepLinesAux_pieces _ [] (mem_map_data_noNl bodies hnl) (by simp)]
  rw [if_pos rfl, List.append_nil, ← map_data_lines, map_mk_data]

/-- The keepends lines of a file whose content does not end with a newline:
all bodies but the last carry a newline, the last is bare. -/
theorem keepLines_bodiesContent_false (L : List String) (lb : String)
    (hnlL : ∀ b ∈ L, ('\n' : Char) ∉ b.data) (hnlb : ('\n' : Char) ∉ lb.data)
    (hne : lb ≠ "") :
    keepLines (bodiesContent (L ++ [lb]) false) =
      L.map (fun b => b ++ "\n") ++ [lb] := by
  unfold bodiesContent keepLines joinNl
  rw [if_neg (by simp), List.map_append]
  simp only [List.map_cons, List.map_nil]
  rw [joinNlAux_concat,
    keepLinesAux_pieces _ lb.data (mem_map_data_noNl L hnlL) hnlb,
    if_neg (strData_ne_nil lb hne), List.map_append, ← map_data_lines, map_mk_data]
  rfl

/-- C1 amended: for a file with line bodies `bodies` (none containing a
newline; `trailing` tells whether a final newline ends the file, and a file
without one has a non-empty last body), the file has `bodies.length` lines,
and for every range `1 ≤ s ≤ e ≤ N` the numbered payload returned by the
read_file tool consists of lines `s..e`, each annotated with its correct
absolute line number — followed by one extra empty line annotated `e + 1`
whenever the extracted slice ends with a newline, i.e. whenever `e < N` or
the file ends with a newline. -/
theorem c1_range_read_amended (bodies : List String) (trailing : Bool) (s e : Nat)
    (hnl : ∀ b ∈ bodies, ('\n' : Char) ∉ b.data)
    (hlast : trailing = false → bodies.getLast? ≠ some "")
    (hs : 1 ≤ s) (hse : s ≤ e) (he : e ≤ bodies.length) :
    count_file_lines (bodiesContent bodies trailing) = bodies.length ∧
    rangeNumbered (bodiesContent bodies trailing) s e =
      joinNl (numberLines s ((bodies.drop (s - 1)).take (e + 1 - s)) ++
        (if e < bodies.length ∨ trailing = true then [toString (e + 1) ++ ": "] else [])) := by
  have hidx : e - 1 + 1 - (s - 1) = e + 1 - s := by omega
  cases trailing with
  | true =>
    have hK := keepLines_bodiesContent_true bodies hnl
    constructor
    · simp only [count_file_lines, hK, List.length_map]
    · simp only [rangeNumbered, read_lines, add_line_numbers, hidx, hK]
      rw [← List.map_drop, ← List.map_take,
        splitNl_fullLines _
          (fun b hb => hnl b (List.mem_of_mem_drop (List.mem_of_mem_take hb))),
        numberLines_append]
      have hlen : ((bodies.drop (s - 1)).take (e + 1 - s)).length = e + 1 - s := by
        rw [List.length_take, List.length_drop]; omega
      rw [hlen, show s + (e + 1 - s) = e + 1 from by omega,
        if_pos (Or.inr (by trivial))]
      simp [numberLines, strAppend_empty]
  | false =>
    obtain h | ⟨L, lb, rfl⟩ := List.eq_nil_or_concat bodies
    · subst h
      simp at he
      omega
    · simp only [List.concat_eq_append] at hnl hlast he ⊢
      have hnlL : ∀ b ∈ L, ('\n' : Char) ∉ b.data := fun b hb => hnl b (by simp [hb])
      have hnlb : ('\n' : Char) ∉ lb.data := hnl lb (by simp)
      have hlbne : lb ≠ "" := by
        have h1 := hlast (by simp)
        rw [List.getLast?_concat] at h1
        intro h2
        exact h1 (by rw [h2])
      have hK := keepLines_bodiesContent_false L lb hnlL hnlb hlbne
      have hLf : (L.map (fun b => b ++ "\n")).length = L.length := List.length_map _ _
      have hlen2 : (L ++ [lb]).length = L.length + 1 := by simp
      constructor
      · simp only [count_file_lines, hK]
        simp
      · simp only [rangeNumbered, read_lines, add_line_numbers, hidx, hK]
        rw [hlen2] at he ⊢
        by_cases hcase : e ≤ L.length
        · rw [List.drop_append_of_le_length (by rw [hLf]; omega),
            List.take_append_of_le_length (by rw [List.length_drop, hLf]; omega),
            ← List.map_drop, ← List.map_take,
            splitNl_fullLines _
              (fun b hb => hnlL b (List.mem_of_mem_drop (List.mem_of_mem_take hb))),
            numberLines_append]
          have hlen : ((L.drop (s - 1)).take (e + 1 - s)).length = e + 1 - s := by
            rw [List.length_take, List.length_drop]; omega
          rw [hlen, show s + (e + 1 - s) = e + 1 from by omega,
            if_pos (Or.inl (by omega)),
            List.drop_append_of_le_length (by omega : s - 1 ≤ L.length),
            List.take_append_of_le_length (by rw [List.length_drop]; omega)]
          simp [numberLines, strAppend_empty]
        · have he2 : e = L.length + 1 := by omega
          rw [List.drop_append_of_le_length (by rw [hLf]; omega),
            List.take_of_length_le (by simp [List.length_drop]; omega),
            ← List.map_drop,
            splitNl_fullLines_last _ lb
              (fun b hb => hnlL b (List.mem_of_mem_drop hb)) hnlb,
            if_neg (by simp; omega),
            List.drop_append_of_le_length (by omega : s - 1 ≤ L.length),
            List.take_of_length_le (by simp [List.length_drop]; omega)]
          simp

/-- Witness for C1: the 3-line file `"a\nb\nc\n"` read with range 1-2 yields
lines 1 and 2 plus the extra `3: ` artifact. -/
theorem c1_range_read_witness :
    count_file_lines (bodiesContent ["a", "b", "c"] true) = 3 ∧
    rangeNumbered (bodiesContent ["a", "b", "c"] true) 1 2 =
      joinNl (numberLines 1 (((["a", "b", "c"] : List String).drop 0).take 2) ++
        [toString 3 ++ ": "]) :=
  (c1_range_read_amended ["a", "b", "c"] true 1 2 (by decide) (by decide)
    (by decide) (by decide) (by decide)).imp (fun h => h) (fun h => h.trans (by decide))
